import Mathlib

/-!
Shallow embedding of `examples/gsm8k/inference.py` (the GSM8k RAP driver)
and, where the deciding code lives outside this slice of the repository,
models built from the specification.  Python floats are modelled as exact
rationals, Python dicts over string keys as association lists, and the
filesystem / construction side effects of the driver as an explicit event
trace.
-/

set_option autoImplicit false

namespace RapGsm8k

/-- Opaque parameter values (functions such as `sum` / `np.mean` are tracked
by name only; the driver never calls them itself, it just forwards them). -/
inductive PVal where
  | fn (name : String)
  | nat (n : Nat)
  | rat (q : Rat)
  | str (s : String)
deriving DecidableEq, Repr

/-- Python string-keyed dict, modelled as an association list in insertion
order. -/
abbrev Dict := List (String × PVal)

/-- Lookup in a dict (`d[k]` / `d.get(k)`). -/
def dictGet (d : Dict) (k : String) : Option PVal :=
  (d.find? (fun p => p.1 == k)).map (fun p => p.2)

/-- Python `d | {k: v}` semantics for a single key: if `k` is present its
value is replaced in place (keys of a Python dict are unique), otherwise the
pair is appended. -/
def dictInsert : Dict → String → PVal → Dict
  | [], k, v => [(k, v)]
  | p :: t, k, v => if p.1 == k then (k, v) :: t else p :: dictInsert t k v

/-- Embedding of `search_algo_params |= {'cum_reward': cum_reward, 'calc_q': calc_q}`
(inference.py line 45): the named parameters override any caller-supplied
entries of the kwargs dict. -/
def mergeSearchParams (search_algo_params : Dict) (cum_reward calc_q : PVal) : Dict :=
  dictInsert (dictInsert search_algo_params "cum_reward" cum_reward) "calc_q" calc_q

/-- One dataset record: a `question` string and an `answer` string. -/
structure Example where
  question : String
  answer : String
deriving DecidableEq, Repr

/-- One step of the terminal reasoning trace, as the driver reads it
(`algo_output.terminal_state[-1].sub_answer`).  The full SubResult of the
`rap` package carries more fields; the driver only dereferences
`sub_answer`, so the embedding keeps the step strings. -/
structure SubResult where
  sub_question : String
  sub_answer : String
deriving DecidableEq, Repr

/-- The search result the Agent returns to the driver.  The driver reads
`terminal_state` and serializes the whole object; everything else is opaque
to this file, so the embedding keeps just the terminal trace. -/
structure AlgoOutput where
  terminal_state : List SubResult
deriving DecidableEq, Repr

/-- Parse a list of decimal digits into a number; `none` when the list is
empty or holds a non-digit. -/
def parseDigits : List Char → Option Nat
  | [] => none
  | cs =>
    if cs.all Char.isDigit then
      some (cs.foldl (fun n c => n * 10 + (c.toNat - '0'.toNat)) 0)
    else
      none

/-- Whitespace test used when trimming an extracted answer. -/
def isWs (c : Char) : Bool := c = ' ' || c = '\n' || c = '\t' || c = '\r'

/-- Drop whitespace from both ends of a character list. -/
def trimChars (cs : List Char) : List Char :=
  ((cs.dropWhile isWs).reverse.dropWhile isWs).reverse

/-- Parse an optionally negated decimal integer, with surrounding whitespace
trimmed and commas removed (GSM8k final answers such as `1,000`). -/
def parseInt (cs0 : List Char) : Option Int :=
  let cs := trimChars (cs0.filter (fun c => c ≠ ','))
  match cs with
  | '-' :: rest => (parseDigits rest).map (fun n => -(n : Int))
  | l => (parseDigits l).map (fun n => (n : Int))

/-- Consume `marker` from the front of `cs`; `some` of the remainder when it
matches, `none` otherwise. -/
def dropMarker : List Char → List Char → Option (List Char)
  | [], rest => some rest
  | _ :: _, [] => none
  | m :: ms, c :: cs => if c = m then dropMarker ms cs else none

/-- Suffix following the last occurrence of `marker`, or `none` when the
marker never occurs. -/
def afterLastMarker (marker : List Char) : List Char → Option (List Char)
  | [] => none
  | c :: rest =>
    match afterLastMarker marker rest with
    | some r => some r
    | none => dropMarker marker (c :: rest)

/-- Modelled from the spec: `utils.retrieve_answer_from_dataset` is not under
src/.  Section 6 of the spec says the dataset answer string contains "an
embedded final numeric answer extractable by a fixed delimiter convention"
(the GSM8k `#### ` delimiter) and section 7 says a malformed ground truth is
"surfaced as a correctness-judgment failure (counted as incorrect rather than
crashing)", so the extractor is total and returns `none` on malformed input. -/
def retrieve_answer_from_dataset (answer : String) : Option Int :=
  match afterLastMarker ("#### ".toList) answer.toList with
  | none => none
  | some rest => parseInt rest

/-- Modelled from the spec: `utils.retrieve_answer` is not under src/.
Section 4.2 of the spec fixes the parsing rule as "first parseable number in
the completion, else ... discarded as unparseable"; the extractor scans for
the first maximal digit run. -/
def retrieve_answer (s : String) : Option Int :=
  let cs := s.toList.dropWhile (fun c => ¬ c.isDigit)
  parseDigits (cs.takeWhile Char.isDigit)

/-- Modelled from the spec: `utils.judge_answer` is not under src/.  A case
is correct when both extractions succeed and agree; a missing extraction on
either side is a correctness-judgment failure, never an exception. -/
def judge_answer (output answer : Option Int) : Bool :=
  match output, answer with
  | some o, some a => o == a
  | _, _ => false

/-- Embedding of `utils.retrieve_answer(algo_output.terminal_state[-1].sub_answer)`
(inference.py line 60); an empty terminal trace yields `none`. -/
def extractOutput (o : AlgoOutput) : Option Int :=
  match o.terminal_state.getLast? with
  | some sr => retrieve_answer sr.sub_answer
  | none => none

/-- One appended line of `result.log` (inference.py line 66): case index,
correctness boolean, extracted output, extracted ground truth, running
accuracy. -/
structure LogRecord where
  caseIdx : Nat
  correct : Bool
  output : Option Int
  answer : Option Int
  accuracy : Rat
deriving DecidableEq, Repr

/-- Observable side effects of the driver, in program order. -/
inductive Event where
  | makeLogDir
  | writeArgsFile
  | constructWorldModel
  | constructConfig
  | constructSearchAlgo (params : Dict)
  | constructAgent
  | loadDataset (resume : Nat)
  | agentCall (question : String)
deriving DecidableEq, Repr

/-- Accumulated output of one driver run: the lines appended to
`result.log`, the pickled artifacts keyed by their file name index
(`algo_output/{resume + i + 1}.pkl`), and the event trace. -/
structure RunOutput where
  resultLog : List LogRecord
  artifacts : List (Nat × AlgoOutput)
  events : List Event
deriving DecidableEq, Repr

/-- Embedding of the `for i, example in enumerate(...)` loop of
`rap_gsm8k` (inference.py lines 57-72).  `i` and `correct_count` are the
loop-carried Python locals; the agent is the deterministic question-to-result
function the driver obtained from `RAPAgent`. -/
def runLoop (agent : String → AlgoOutput) (resume : Nat) (disable_log : Bool) :
    Nat → Nat → List Example → RunOutput
  | _, _, [] => ⟨[], [], []⟩
  | i, correct_count, ex :: rest =>
    let algo_output := agent ex.question
    let output := extractOutput algo_output
    let answer := retrieve_answer_from_dataset ex.answer
    let correct := judge_answer output answer
    let cc := correct_count + (if correct then 1 else 0)
    let record : LogRecord :=
      ⟨resume + i + 1, correct, output, answer, (cc : Rat) / ((i : Rat) + 1)⟩
    let restOut := runLoop agent resume disable_log (i + 1) cc rest
    ⟨(if disable_log then [] else [record]) ++ restOut.resultLog,
     (if disable_log then [] else [(resume + i + 1, algo_output)]) ++ restOut.artifacts,
     Event.agentCall ex.question :: restOut.events⟩

/-- Configuration surface of `rap_gsm8k` (inference.py lines 17-35), with
Python floats as rationals and the two aggregation functions as opaque
values.  Defaults mirror the source. -/
structure RapConfig where
  resume : Nat := 0
  n_action : Nat := 4
  n_confidence : Nat := 8
  depth_limit : Nat := 5
  force_terminating_on_depth_limit : Bool := true
  batch_size : Nat := 2
  early_stop_base : Nat := 2
  early_stop_threshold : Rat := 1/2
  reward_alpha : Rat := 1/2
  reward_confidence_default : Rat := 4/5
  cum_reward : PVal := PVal.fn "sum"
  calc_q : PVal := PVal.fn "np.mean"
  log_dir : Option String := none
  disable_log : Bool := false
  search_algo_params : Dict := []
deriving Repr

/-- Parameter names of `rap_gsm8k`, in signature order (inference.py
lines 17-35).  There is no seed parameter anywhere in the signature. -/
def rapGsm8kParamNames : List String :=
  ["base_model", "interactive_prompt", "useful_prompt", "search_algo",
   "resume", "n_action", "n_confidence", "depth_limit",
   "force_terminating_on_depth_limit", "batch_size", "early_stop_base",
   "early_stop_threshold", "reward_alpha", "reward_confidence_default",
   "cum_reward", "calc_q", "log_dir", "disable_log", "search_algo_params"]

/-- Global seeding calls performed by the `__main__` block before
constructing the model (inference.py lines 86-90): process-wide mutable RNG
state, all seeded with the literal 0. -/
inductive SeedCall where
  | npRandomSeed (n : Nat)
  | randomSeed (n : Nat)
  | torchManualSeed (n : Nat)
  | torchCudaManualSeed (n : Nat)
deriving DecidableEq, Repr

/-- The seeding performed by `__main__`, in order. -/
def mainSeedCalls : List SeedCall :=
  [SeedCall.npRandomSeed 0, SeedCall.randomSeed 0,
   SeedCall.torchManualSeed 0, SeedCall.torchCudaManualSeed 0]

/-- Which of the names `os` and `sys` are bound in the environment
`rap_gsm8k` runs in. -/
structure PyEnv where
  os_bound : Bool
  sys_bound : Bool
deriving DecidableEq, Repr

/-- Environment after a plain `import` of the module: the module-level
imports are pickle, typing, numpy, datasets, tqdm, datetime, rap,
world_model, search_config and utils; `os` and `sys` are imported only
inside the `__main__` block, so neither is bound. -/
def importEnv : PyEnv := ⟨false, false⟩

/-- Environment inside the `__main__` block, where `import os` and
`import sys` have run. -/
def mainEnv : PyEnv := ⟨true, true⟩

/-- Result of a driver call: either the accumulated output, or a Python
`NameError` on a given unbound global name. -/
inductive RunResult where
  | ok (out : RunOutput)
  | nameError (name : String)
deriving DecidableEq, Repr

/-- Effect trace of the body of `rap_gsm8k` once the logging setup has
succeeded (or been skipped): directory creation and args dump when logging
is on, the kwargs merge, the four constructions, the dataset load from
`test[resume:]`, then the loop over the records after the resume offset. -/
def rap_gsm8k_body (cfg : RapConfig) (agent : String → AlgoOutput)
    (testSplit : List Example) : RunOutput :=
  let params := mergeSearchParams cfg.search_algo_params cfg.cum_reward cfg.calc_q
  let setup : List Event :=
    (if cfg.disable_log then [] else [Event.makeLogDir, Event.writeArgsFile]) ++
    [Event.constructWorldModel, Event.constructConfig,
     Event.constructSearchAlgo params, Event.constructAgent,
     Event.loadDataset cfg.resume]
  let loopOut := runLoop agent cfg.resume cfg.disable_log 0 0 (testSplit.drop cfg.resume)
  ⟨loopOut.resultLog, loopOut.artifacts, setup ++ loopOut.events⟩

/-- Embedding of `rap_gsm8k` (inference.py lines 17-72).  With logging
enabled the first statements executed are `os.makedirs(...)` and then
`print(sys.argv, file=f)`, so an environment with `os` (resp. `sys`) unbound
raises a `NameError` on that name before any question is processed. -/
def rap_gsm8k (env : PyEnv) (cfg : RapConfig) (agent : String → AlgoOutput)
    (testSplit : List Example) : RunResult :=
  if cfg.disable_log then
    RunResult.ok (rap_gsm8k_body cfg agent testSplit)
  else if env.os_bound = false then
    RunResult.nameError "os"
  else if env.sys_bound = false then
    RunResult.nameError "sys"
  else
    RunResult.ok (rap_gsm8k_body cfg agent testSplit)

/-- The questions handed to the agent, in call order, read off the event
trace. -/
def agentCalls (events : List Event) : List String :=
  events.filterMap (fun e =>
    match e with
    | Event.agentCall q => some q
    | _ => none)

/-- Decidable test for a search-algorithm construction event. -/
def isConstructSearchAlgo : Event → Bool
  | Event.constructSearchAlgo _ => true
  | _ => false

/-- Correctness judgment of a single case, exactly as the loop body computes
it (inference.py lines 60-62). -/
def correctFor (agent : String → AlgoOutput) (ex : Example) : Bool :=
  judge_answer (extractOutput (agent ex.question)) (retrieve_answer_from_dataset ex.answer)

/-- Correctness flags of the records processed in the current run, in
order. -/
def correctFlags (agent : String → AlgoOutput) (l : List Example) : List Bool :=
  l.map (correctFor agent)

/-- Placeholder record used with `List.getD` when reading the log. -/
def defaultRec : LogRecord := ⟨0, false, none, none, 0⟩

/-- Placeholder example used with `List.getD`. -/
def defaultEx : Example := ⟨"", ""⟩

/-- Running accuracy after the record at position `j` (0-based) of the
current run: correct cases among the first `j + 1`, divided by `j + 1`. -/
def runningAccuracy (agent : String → AlgoOutput) (l : List Example) (j : Nat) : Rat :=
  ((((correctFlags agent l).take (j + 1)).count true : Nat) : Rat) / ((j : Rat) + 1)

/-! Model of the search side, for the depth-limit claim.

Modelled from the spec: `search_config.py` (GSM8kConfig) and the `rap`
package's search algorithm are not under src/; only `inference.py`, which
forwards `force_terminating_on_depth_limit` and `depth_limit` into their
construction (lines 49-52), is.  The model follows spec sections 4.3, 4.4
and 8: a state is the list of reasoning steps taken plus a final-answer
flag, its depth is the number of steps; `propose_actions` generates up to
`n_actions` deduplicated candidate sub-questions from an abstract sampler,
except that at depth at least `depth_limit` with the force flag set the only
proposed action is the final-answer action; `is_terminal` is true when the
state carries a final answer or the depth limit is exceeded (section 8:
"false otherwise unless depth limit is exceeded", which is what makes a
search started exactly at `depth_limit` propose its one forced action);
the trajectory builder repeatedly picks a proposed action (through an
abstract choice index, covering any selection policy) until a terminal
state, with the spec's proposal-degeneracy fallback to the final-answer
action. -/

/-- A reasoning state of the search model: steps taken so far and whether
the last step was produced by the final-answer action. -/
structure MState where
  steps : List String
  isFinal : Bool
deriving DecidableEq, Repr

/-- A candidate action: a sub-question, or the distinguished final-answer
action. -/
inductive MAction where
  | subQuestion (q : String)
  | finalAnswer
deriving DecidableEq, Repr

/-- Depth of a state: number of steps taken from the root. -/
def MState.depth (s : MState) : Nat := s.steps.length

/-- Modelled from the spec (section 4.3): action proposal with the
depth-limit hard cutoff. -/
def propose_actions (sampler : MState → List String)
    (force_terminating_on_depth_limit : Bool) (depth_limit n_actions : Nat)
    (s : MState) : List MAction :=
  if force_terminating_on_depth_limit && decide (depth_limit ≤ s.depth) then
    [MAction.finalAnswer]
  else
    ((sampler s).dedup.take n_actions).map MAction.subQuestion

/-- Modelled from the spec (sections 4.3 and 8): a state is terminal when it
carries a final answer or the depth limit is exceeded. -/
def m_is_terminal (depth_limit : Nat) (s : MState) : Bool :=
  s.isFinal || decide (depth_limit < s.depth)

/-- Modelled from the spec (section 4.2): a transition extends the state by
one step; the final-answer action marks the state terminal. -/
def m_step (s : MState) (a : MAction) : MState :=
  match a with
  | MAction.finalAnswer => ⟨s.steps ++ ["<final>"], true⟩
  | MAction.subQuestion q => ⟨s.steps ++ [q], false⟩

/-- Modelled from the spec (sections 4.4 and 7b): the root-to-leaf
trajectory of a search, for an arbitrary selection policy `choose` (an index
into the proposed-action list); returns the actions taken and the reached
state.  `fuel` bounds the recursion. -/
def searchTrajectory (sampler : MState → List String) (choose : MState → Nat)
    (force_flag : Bool) (depth_limit n_actions : Nat) :
    Nat → MState → List MAction × MState
  | 0, s => ([], s)
  | fuel + 1, s =>
    if m_is_terminal depth_limit s then ([], s)
    else
      match propose_actions sampler force_flag depth_limit n_actions s with
      | [] => ([MAction.finalAnswer], m_step s MAction.finalAnswer)
      | a :: rest =>
        let act := (a :: rest).getD (choose s) a
        let next := searchTrajectory sampler choose force_flag depth_limit n_actions
          fuel (m_step s act)
        (act :: next.1, next.2)

/-! Concrete inputs used by counterexamples and witnesses. -/

/-- Deterministic stub agent for concrete runs: answers every question with
the text "The answer is 11.". -/
def stubAgent : String → AlgoOutput := fun q => ⟨[⟨q, "The answer is 11."⟩]⟩

/-- The same gateway as `stubAgent`, written differently but extensionally
equal. -/
def stubAgentB : String → AlgoOutput := fun q => ⟨[⟨q, "The answer is " ++ "11."⟩]⟩

/-- Two-record dataset: the first ground truth is 11 (matching the stub
agent), the second is 7 (not matching). -/
def twoExamples : List Example := [⟨"q1", "x #### 11"⟩, ⟨"q2", "y #### 7"⟩]

/-- One-record dataset. -/
def oneExample : List Example := [⟨"q1", "x #### 11"⟩]

/-- One-record dataset whose answer string has no `#### ` delimiter, hence
no extractable ground truth. -/
def malformedExample : List Example := [⟨"qm", "malformed"⟩]

/-- Driver configuration with logging disabled. -/
def cfgNoLog : RapConfig := { disable_log := true }

/-- Default driver configuration (logging enabled, resume 0). -/
def cfgLog : RapConfig := {}

/-- Driver configuration resuming from offset 1. -/
def cfgResume : RapConfig := { resume := 1 }

/-! Dictionary lemmas for the kwargs merge. -/

theorem dictGet_cons (p : String × PVal) (t : Dict) (k : String) :
    dictGet (p :: t) k = if p.1 == k then some p.2 else dictGet t k := by
  cases hb : (p.1 == k) <;> simp [dictGet, List.find?_cons, hb]

theorem dictGet_insert_self (d : Dict) (k : String) (v : PVal) :
    dictGet (dictInsert d k v) k = some v := by
  induction d with
  | nil => simp [dictInsert, dictGet_cons]
  | cons p t ih =>
    by_cases hp : p.1 = k
    · simp [dictInsert, hp, dictGet_cons]
    · simp [dictInsert, hp, dictGet_cons, ih]

theorem dictGet_insert_other (d : Dict) (k k' : String) (v : PVal) (hk : k ≠ k') :
    dictGet (dictInsert d k v) k' = dictGet d k' := by
  induction d with
  | nil => simp [dictInsert, dictGet_cons, dictGet, hk]
  | cons p t ih =>
    by_cases hp : p.1 = k
    · simp [dictInsert, hp, dictGet_cons, hk]
    · by_cases hp' : p.1 = k' <;> simp [dictInsert, hp, hp', dictGet_cons, ih, Ne.symm hk]

theorem mergeSearchParams_cum_reward (p : Dict) (cr cq : PVal) :
    dictGet (mergeSearchParams p cr cq) "cum_reward" = some cr := by
  unfold mergeSearchParams
  rw [dictGet_insert_other _ _ _ _ (by decide), dictGet_insert_self]

theorem mergeSearchParams_calc_q (p : Dict) (cr cq : PVal) :
    dictGet (mergeSearchParams p cr cq) "calc_q" = some cq := by
  unfold mergeSearchParams
  rw [dictGet_insert_self]

/-! Event-trace lemmas for the driving loop. -/

theorem runLoop_events (agent : String → AlgoOutput) (resume : Nat) (dl : Bool) :
    ∀ (i cc : Nat) (l : List Example),
      (runLoop agent resume dl i cc l).events = l.map (fun ex => Event.agentCall ex.question)
  | _, _, [] => rfl
  | i, cc, ex :: rest => by
    simp only [runLoop, List.map_cons, List.cons.injEq, true_and]
    exact runLoop_events agent resume dl (i + 1) _ rest

theorem correctFor_eq (agent : String → AlgoOutput) (ex : Example) :
    judge_answer (extractOutput (agent ex.question)) (retrieve_answer_from_dataset ex.answer) =
      correctFor agent ex := rfl

theorem runLoop_resultLog_length (agent : String → AlgoOutput) (resume : Nat) :
    ∀ (i cc : Nat) (l : List Example),
      (runLoop agent resume false i cc l).resultLog.length = l.length
  | _, _, [] => rfl
  | i, cc, ex :: rest => by
    simp only [runLoop, if_neg Bool.false_ne_true, List.length_cons, List.nil_append,
      List.singleton_append]
    exact congrArg Nat.succ (runLoop_resultLog_length agent resume (i + 1) _ rest)

theorem runLoop_artifacts_length (agent : String → AlgoOutput) (resume : Nat) :
    ∀ (i cc : Nat) (l : List Example),
      (runLoop agent resume false i cc l).artifacts.length = l.length
  | _, _, [] => rfl
  | i, cc, ex :: rest => by
    simp only [runLoop, if_neg Bool.false_ne_true, List.length_cons, List.nil_append,
      List.singleton_append]
    exact congrArg Nat.succ (runLoop_artifacts_length agent resume (i + 1) _ rest)

theorem runLoop_disabled (agent : String → AlgoOutput) (resume : Nat) :
    ∀ (i cc : Nat) (l : List Example),
      (runLoop agent resume true i cc l).resultLog = [] ∧
      (runLoop agent resume true i cc l).artifacts = []
  | _, _, [] => ⟨rfl, rfl⟩
  | i, cc, ex :: rest => by
    simpa only [runLoop, if_pos rfl, List.nil_append] using
      runLoop_disabled agent resume (i + 1) _ rest

theorem runLoop_resultLog_getD (agent : String → AlgoOutput) (resume : Nat) :
    ∀ (l : List Example) (i cc j : Nat), j < l.length →
      (runLoop agent resume false i cc l).resultLog.getD j defaultRec =
        { caseIdx := resume + i + j + 1
          correct := correctFor agent (l.getD j defaultEx)
          output := extractOutput (agent (l.getD j defaultEx).question)
          answer := retrieve_answer_from_dataset (l.getD j defaultEx).answer
          accuracy := (((cc + ((correctFlags agent l).take (j + 1)).count true : Nat) : Rat) /
            (((i + j : Nat) : Rat) + 1)) }
  | [], _, _, j, hj => absurd hj (by simp)
  | ex :: rest, i, cc, 0, _ => by
    simp only [runLoop, if_neg Bool.false_ne_true, List.singleton_append, List.getD_cons_zero,
      correctFlags, List.map_cons, List.take_succ_cons, List.take_zero, List.count_cons,
      List.count_nil, correctFor_eq]
    simp [beq_iff_eq]
  | ex :: rest, i, cc, j + 1, hj => by
    have hj2 : j < rest.length := by simpa using hj
    have ih := runLoop_resultLog_getD agent resume rest (i + 1)
      (cc + (if correctFor agent ex then 1 else 0)) j hj2
    simp only [runLoop, if_neg Bool.false_ne_true, List.singleton_append, List.getD_cons_succ,
      correctFlags, List.map_cons, List.take_succ_cons, List.count_cons, correctFor_eq] at ih ⊢
    rw [ih]
    cases hb : correctFor agent ex <;>
      simp only [hb, if_true, if_false, beq_iff_eq, reduceIte, LogRecord.mk.injEq, true_and,
        and_true, Bool.false_eq_true] <;>
      refine ⟨by omega, ?_⟩ <;>
      (congr 1 <;> norm_cast <;> omega)

theorem runLoop_artifacts_getD (agent : String → AlgoOutput) (resume : Nat) :
    ∀ (l : List Example) (i cc j : Nat), j < l.length →
      (runLoop agent resume false i cc l).artifacts.getD j (0, ⟨[]⟩) =
        (resume + i + j + 1, agent ((l.getD j defaultEx).question))
  | [], _, _, j, hj => absurd hj (by simp)
  | ex :: rest, i, cc, 0, _ => by
    simp [runLoop]
  | ex :: rest, i, cc, j + 1, hj => by
    have hj2 : j < rest.length := by simpa using hj
    have ih := runLoop_artifacts_getD agent resume rest (i + 1)
      (cc + (if correctFor agent ex then 1 else 0)) j hj2
    simp only [runLoop, if_neg Bool.false_ne_true, List.singleton_append, List.getD_cons_succ,
      correctFor_eq] at ih ⊢
    rw [ih]
    simp only [Prod.mk.injEq, and_true]
    omega

theorem agentCalls_append (l1 l2 : List Event) :
    agentCalls (l1 ++ l2) = agentCalls l1 ++ agentCalls l2 := by
  simp [agentCalls, List.filterMap_append]

theorem agentCalls_map (l : List Example) :
    agentCalls (l.map (fun ex => Event.agentCall ex.question)) = l.map Example.question := by
  induction l with
  | nil => rfl
  | cons ex t ih => simpa [agentCalls, List.filterMap_cons] using ih

theorem agentCalls_cons_makeLogDir (l : List Event) :
    agentCalls (Event.makeLogDir :: l) = agentCalls l := rfl

theorem agentCalls_cons_writeArgsFile (l : List Event) :
    agentCalls (Event.writeArgsFile :: l) = agentCalls l := rfl

theorem agentCalls_cons_constructWorldModel (l : List Event) :
    agentCalls (Event.constructWorldModel :: l) = agentCalls l := rfl

theorem agentCalls_cons_constructConfig (l : List Event) :
    agentCalls (Event.constructConfig :: l) = agentCalls l := rfl

theorem agentCalls_cons_constructSearchAlgo (p : Dict) (l : List Event) :
    agentCalls (Event.constructSearchAlgo p :: l) = agentCalls l := rfl

theorem agentCalls_cons_constructAgent (l : List Event) :
    agentCalls (Event.constructAgent :: l) = agentCalls l := rfl

theorem agentCalls_cons_loadDataset (r : Nat) (l : List Event) :
    agentCalls (Event.loadDataset r :: l) = agentCalls l := rfl

theorem agentCalls_body (cfg : RapConfig) (agent : String → AlgoOutput)
    (testSplit : List Example) :
    agentCalls (rap_gsm8k_body cfg agent testSplit).events =
      (testSplit.drop cfg.resume).map Example.question := by
  simp only [rap_gsm8k_body, runLoop_events]
  cases hb : cfg.disable_log <;>
    simp [hb, agentCalls_append, agentCalls_cons_makeLogDir, agentCalls_cons_writeArgsFile,
      agentCalls_cons_constructWorldModel, agentCalls_cons_constructConfig,
      agentCalls_cons_constructSearchAlgo, agentCalls_cons_constructAgent,
      agentCalls_cons_loadDataset, agentCalls_map, ← List.map_drop]

theorem resultLog_body_getD (cfg : RapConfig) (agent : String → AlgoOutput)
    (testSplit : List Example) (hlog : cfg.disable_log = false) (j : Nat)
    (hj : j < (testSplit.drop cfg.resume).length) :
    (rap_gsm8k_body cfg agent testSplit).resultLog.getD j defaultRec =
      { caseIdx := cfg.resume + j + 1
        correct := correctFor agent ((testSplit.drop cfg.resume).getD j defaultEx)
        output := extractOutput (agent ((testSplit.drop cfg.resume).getD j defaultEx).question)
        answer := retrieve_answer_from_dataset
          ((testSplit.drop cfg.resume).getD j defaultEx).answer
        accuracy := runningAccuracy agent (testSplit.drop cfg.resume) j } := by
  simp only [rap_gsm8k_body, hlog]
  rw [runLoop_resultLog_getD agent cfg.resume _ 0 0 j hj]
  simp [runningAccuracy]

theorem resultLog_body_length (cfg : RapConfig) (agent : String → AlgoOutput)
    (testSplit : List Example) (hlog : cfg.disable_log = false) :
    (rap_gsm8k_body cfg agent testSplit).resultLog.length =
      (testSplit.drop cfg.resume).length := by
  simp only [rap_gsm8k_body, hlog]
  exact runLoop_resultLog_length agent cfg.resume 0 0 _

theorem artifacts_body_length (cfg : RapConfig) (agent : String → AlgoOutput)
    (testSplit : List Example) (hlog : cfg.disable_log = false) :
    (rap_gsm8k_body cfg agent testSplit).artifacts.length =
      (testSplit.drop cfg.resume).length := by
  simp only [rap_gsm8k_body, hlog]
  exact runLoop_artifacts_length agent cfg.resume 0 0 _

theorem artifacts_body_getD (cfg : RapConfig) (agent : String → AlgoOutput)
    (testSplit : List Example) (hlog : cfg.disable_log = false) (j : Nat)
    (hj : j < (testSplit.drop cfg.resume).length) :
    (rap_gsm8k_body cfg agent testSplit).artifacts.getD j (0, ⟨[]⟩) =
      (cfg.resume + j + 1,
       agent (((testSplit.drop cfg.resume).getD j defaultEx).question)) := by
  simp only [rap_gsm8k_body, hlog]
  rw [runLoop_artifacts_getD agent cfg.resume _ 0 0 j hj]
  simp

theorem countP_constructSearchAlgo_body (cfg : RapConfig) (agent : String → AlgoOutput)
    (testSplit : List Example) :
    (rap_gsm8k_body cfg agent testSplit).events.countP isConstructSearchAlgo = 1 := by
  simp only [rap_gsm8k_body, runLoop_events]
  cases hb : cfg.disable_log <;>
    simp [hb, List.countP_append, List.countP_cons, List.countP_map, isConstructSearchAlgo,
      Function.comp, ← List.map_drop]

theorem searchTrajectory_terminal (sampler : MState → List String) (choose : MState → Nat)
    (force_flag : Bool) (depth_limit n_actions : Nat) (fuel : Nat) (s : MState)
    (h : m_is_terminal depth_limit s = true) :
    searchTrajectory sampler choose force_flag depth_limit n_actions fuel s = ([], s) := by
  cases fuel with
  | zero => rfl
  | succ f => simp [searchTrajectory, h]

theorem getD_singleton (a : MAction) (n : Nat) : [a].getD n a = a := by
  cases n <;> simp [List.getD]

/-! Claim theorems. -/

/-- C1: the claim is false as stated — a run of the driving loop over two
questions performs exactly one Search Algorithm construction while two Agent
calls happen, so no fresh Search Algorithm instance is constructed for the
second question. -/
theorem searchAlgo_not_fresh_per_question :
    (rap_gsm8k_body cfgLog stubAgent twoExamples).events.countP isConstructSearchAlgo = 1 ∧
    (agentCalls (rap_gsm8k_body cfgLog stubAgent twoExamples).events).length = 2 ∧
    ¬ 2 ≤ (rap_gsm8k_body cfgLog stubAgent twoExamples).events.countP isConstructSearchAlgo :=
  ⟨rfl, rfl, by decide⟩

/-- C1 (amended): the driving loop constructs exactly one Search Algorithm
instance per run — before any Agent call — and that single instance is
shared by every Agent call of the run. -/
theorem one_searchAlgo_construction_per_run (cfg : RapConfig)
    (agent : String → AlgoOutput) (testSplit : List Example) :
    (rap_gsm8k_body cfg agent testSplit).events.countP isConstructSearchAlgo = 1 ∧
    agentCalls ((rap_gsm8k_body cfg agent testSplit).events.takeWhile
      (fun e => !isConstructSearchAlgo e)) = [] := by
  refine ⟨countP_constructSearchAlgo_body cfg agent testSplit, ?_⟩
  simp only [rap_gsm8k_body]
  cases hb : cfg.disable_log <;>
    simp [hb, List.takeWhile_cons, isConstructSearchAlgo, agentCalls]

/-- C2: the driving loop consumes exactly one record per Agent call, in
dataset order, starting at the resume offset `r` (the records before `r`
are skipped and every record from `r` on is processed exactly once, in
order, with no overlap). -/
theorem driver_sequential_one_call_per_record (cfg : RapConfig)
    (agent : String → AlgoOutput) (testSplit : List Example) :
    agentCalls (rap_gsm8k_body cfg agent testSplit).events =
      (testSplit.drop cfg.resume).map Example.question :=
  agentCalls_body cfg agent testSplit

/-- C3: with `force_terminating_on_depth_limit = true`, a search started at
a (non-final) state of depth exactly `depth_limit` proposes exactly one
action — the final-answer action — and any trajectory the search returns
takes that single action and ends at depth at most `depth_limit + 1`. -/
theorem force_terminating_at_depth_limit (sampler : MState → List String)
    (choose : MState → Nat) (depth_limit n_actions fuel : Nat) (s : MState)
    (hd : s.depth = depth_limit) (hf : s.isFinal = false) (hfuel : 1 ≤ fuel) :
    propose_actions sampler true depth_limit n_actions s = [MAction.finalAnswer] ∧
    (searchTrajectory sampler choose true depth_limit n_actions fuel s).1 =
      [MAction.finalAnswer] ∧
    (searchTrajectory sampler choose true depth_limit n_actions fuel s).2.depth ≤
      depth_limit + 1 := by
  have hprop : propose_actions sampler true depth_limit n_actions s =
      [MAction.finalAnswer] := by
    simp [propose_actions, hd]
  have hterm : m_is_terminal depth_limit s = false := by
    simp [m_is_terminal, hf, hd]
  have hterm2 : m_is_terminal depth_limit ⟨s.steps ++ ["<final>"], true⟩ = true := by
    simp [m_is_terminal]
  obtain ⟨f, rfl⟩ : ∃ f, fuel = f + 1 := ⟨fuel - 1, by omega⟩
  have hdep : s.steps.length = depth_limit := hd
  refine ⟨hprop, ?_, ?_⟩ <;>
    simp [searchTrajectory, hterm, hprop, getD_singleton,
      searchTrajectory_terminal sampler choose true depth_limit n_actions f _ hterm2,
      MState.depth, m_step, hdep]

/-- C3 witness: a concrete search at depth 2 with `depth_limit = 2`. -/
theorem force_terminating_at_depth_limit_witness :
    (⟨["s1", "s2"], false⟩ : MState).depth = 2 ∧
    (⟨["s1", "s2"], false⟩ : MState).isFinal = false ∧
    1 ≤ 3 ∧
    propose_actions (fun _ => ["a", "b"]) true 2 4 ⟨["s1", "s2"], false⟩ =
      [MAction.finalAnswer] ∧
    (searchTrajectory (fun _ => ["a", "b"]) (fun _ => 0) true 2 4 3
      ⟨["s1", "s2"], false⟩).2.depth ≤ 3 := by
  have h := force_terminating_at_depth_limit (fun _ => ["a", "b"]) (fun _ => 0) 2 4 3
    ⟨["s1", "s2"], false⟩ rfl rfl (by decide)
  exact ⟨rfl, rfl, by decide, h.1, h.2.2⟩

/-- C4: the claim is false as stated — with `disable_log = True` the driver
completes a question (one Agent call) yet appends no record to the
result log. -/
theorem no_log_record_when_logging_disabled :
    (agentCalls (rap_gsm8k_body cfgNoLog stubAgent oneExample).events).length = 1 ∧
    (rap_gsm8k_body cfgNoLog stubAgent oneExample).resultLog = [] :=
  ⟨rfl, rfl⟩

/-- C4 (amended): when logging is enabled (`disable_log = False`), exactly
one record is appended per completed question, containing the case index,
the correctness boolean, the extracted output, the extracted ground truth
and the running accuracy. -/
theorem one_log_record_per_completed_case (cfg : RapConfig)
    (agent : String → AlgoOutput) (testSplit : List Example)
    (hlog : cfg.disable_log = false) :
    (rap_gsm8k_body cfg agent testSplit).resultLog.length =
      (testSplit.drop cfg.resume).length ∧
    ∀ j, j < (testSplit.drop cfg.resume).length →
      (rap_gsm8k_body cfg agent testSplit).resultLog.getD j defaultRec =
        { caseIdx := cfg.resume + j + 1
          correct := correctFor agent ((testSplit.drop cfg.resume).getD j defaultEx)
          output := extractOutput
            (agent ((testSplit.drop cfg.resume).getD j defaultEx).question)
          answer := retrieve_answer_from_dataset
            ((testSplit.drop cfg.resume).getD j defaultEx).answer
          accuracy := runningAccuracy agent (testSplit.drop cfg.resume) j } :=
  ⟨resultLog_body_length cfg agent testSplit hlog,
   fun j hj => resultLog_body_getD cfg agent testSplit hlog j hj⟩

/-- C4 witness: concrete two-question run; the second record is case 2,
incorrect (11 against ground truth 7), with running accuracy 1/2. -/
theorem one_log_record_per_completed_case_witness :
    cfgLog.disable_log = false ∧
    (rap_gsm8k_body cfgLog stubAgent twoExamples).resultLog.length = 2 ∧
    (rap_gsm8k_body cfgLog stubAgent twoExamples).resultLog.getD 1 defaultRec =
      { caseIdx := 2, correct := false, output := some 11, answer := some 7,
        accuracy := 1/2 } := by
  have h := one_log_record_per_completed_case cfgLog stubAgent twoExamples rfl
  refine ⟨rfl, ?_, ?_⟩
  · rw [h.1]
    decide
  · rw [h.2 1 (by decide)]
    have hflags : correctFlags stubAgent (List.drop cfgLog.resume twoExamples) =
        [true, false] := by decide
    have hcount : (List.take (1 + 1) [true, false]).count true = 1 := by decide
    simp only [LogRecord.mk.injEq, runningAccuracy, hflags, hcount]
    refine ⟨by decide, by decide, by decide, by decide, by norm_num⟩

/-- C5: the Search Algorithm is always constructed with exactly the
`cum_reward` and `calc_q` the caller supplied: the single construction event
of any run carries the merged kwargs, whose `cum_reward` and `calc_q`
entries are the caller's values (the merge overrides any caller-supplied
kwargs entry of the same name). -/
theorem searchAlgo_constructed_with_caller_aggregators (cfg : RapConfig)
    (agent : String → AlgoOutput) (testSplit : List Example) :
    (Event.constructSearchAlgo
        (mergeSearchParams cfg.search_algo_params cfg.cum_reward cfg.calc_q) ∈
      (rap_gsm8k_body cfg agent testSplit).events) ∧
    ∀ p, Event.constructSearchAlgo p ∈ (rap_gsm8k_body cfg agent testSplit).events →
      dictGet p "cum_reward" = some cfg.cum_reward ∧
      dictGet p "calc_q" = some cfg.calc_q := by
  constructor
  · simp only [rap_gsm8k_body]
    cases hb : cfg.disable_log <;> simp [hb]
  · intro p hp
    simp only [rap_gsm8k_body, runLoop_events] at hp
    have hpe : p = mergeSearchParams cfg.search_algo_params cfg.cum_reward cfg.calc_q := by
      cases hb : cfg.disable_log <;> rw [hb] at hp <;> simp at hp <;>
        rcases hp with hp | hp <;>
          first
            | exact hp
            | exact absurd (List.mem_of_mem_drop hp) (by simp)
    subst hpe
    exact ⟨mergeSearchParams_cum_reward _ _ _, mergeSearchParams_calc_q _ _ _⟩

/-- C5 witness: with the default configuration the constructed parameters
resolve `cum_reward` to `sum` and `calc_q` to `np.mean`. -/
theorem searchAlgo_constructed_with_caller_aggregators_witness :
    dictGet (mergeSearchParams cfgLog.search_algo_params cfgLog.cum_reward cfgLog.calc_q)
      "cum_reward" = some (PVal.fn "sum") ∧
    dictGet (mergeSearchParams cfgLog.search_algo_params cfgLog.cum_reward cfgLog.calc_q)
      "calc_q" = some (PVal.fn "np.mean") := by
  have h := searchAlgo_constructed_with_caller_aggregators cfgLog stubAgent oneExample
  exact h.2 _ h.1

/-- C6: the claim is false as stated — `rap_gsm8k` has no seed parameter in
its signature, and the `__main__` block instead performs four global
seeding calls (all with the literal 0), i.e. determinism rests on implicit
global mutable state, not on an explicit seed parameter threaded through
construction. -/
theorem no_explicit_seed_parameter :
    rapGsm8kParamNames.contains "seed" = false ∧
    rapGsm8kParamNames.contains "random_seed" = false ∧
    mainSeedCalls ≠ [] ∧
    ∀ c ∈ mainSeedCalls, c = SeedCall.npRandomSeed 0 ∨ c = SeedCall.randomSeed 0 ∨
      c = SeedCall.torchManualSeed 0 ∨ c = SeedCall.torchCudaManualSeed 0 := by
  refine ⟨by decide, by decide, by decide, by decide⟩

/-- C6 (amended): the embedded run is a pure function of the configuration
and the Model Gateway stub, so two runs with the same configuration and
extensionally equal deterministic gateways produce identical SearchResults;
the fixed seed, however, is applied through the global seeding calls of
`__main__`, and `rap_gsm8k` exposes no seed parameter. -/
theorem identical_results_for_identical_seeded_runs (env : PyEnv) (cfg : RapConfig)
    (agent1 agent2 : String → AlgoOutput) (testSplit : List Example)
    (h : ∀ q, agent1 q = agent2 q) :
    rap_gsm8k env cfg agent1 testSplit = rap_gsm8k env cfg agent2 testSplit ∧
    rapGsm8kParamNames.contains "seed" = false := by
  have he : agent1 = agent2 := funext h
  subst he
  exact ⟨rfl, by decide⟩

/-- C6 witness: two syntactically different but extensionally equal stub
gateways yield identical run results. -/
theorem identical_results_for_identical_seeded_runs_witness :
    (∀ q, stubAgent q = stubAgentB q) ∧
    rap_gsm8k mainEnv cfgLog stubAgent oneExample =
      rap_gsm8k mainEnv cfgLog stubAgentB oneExample := by
  have h : ∀ q, stubAgent q = stubAgentB q := fun q => rfl
  exact ⟨h, (identical_results_for_identical_seeded_runs mainEnv cfgLog stubAgent stubAgentB
    oneExample h).1⟩

/-- C7: a record whose answer string has no extractable ground truth is
counted as incorrect (`correct = false` in its log record) and the loop
still performs one Agent call for every record of the run — it proceeds to
the next question instead of aborting. -/
theorem malformed_ground_truth_counted_incorrect (cfg : RapConfig)
    (agent : String → AlgoOutput) (testSplit : List Example)
    (hlog : cfg.disable_log = false) (j : Nat)
    (hj : j < (testSplit.drop cfg.resume).length)
    (hmal : retrieve_answer_from_dataset
      ((testSplit.drop cfg.resume).getD j defaultEx).answer = none) :
    ((rap_gsm8k_body cfg agent testSplit).resultLog.getD j defaultRec).correct = false ∧
    agentCalls (rap_gsm8k_body cfg agent testSplit).events =
      (testSplit.drop cfg.resume).map Example.question := by
  refine ⟨?_, agentCalls_body cfg agent testSplit⟩
  rw [resultLog_body_getD cfg agent testSplit hlog j hj]
  simp only [correctFor, hmal]
  cases extractOutput (agent ((testSplit.drop cfg.resume).getD j defaultEx).question) <;> rfl

/-- C7 witness: a concrete dataset record with no `#### ` delimiter is
judged incorrect and the run still completes. -/
theorem malformed_ground_truth_counted_incorrect_witness :
    cfgLog.disable_log = false ∧
    retrieve_answer_from_dataset "malformed" = none ∧
    ((rap_gsm8k_body cfgLog stubAgent malformedExample).resultLog.getD 0
      defaultRec).correct = false ∧
    agentCalls (rap_gsm8k_body cfgLog stubAgent malformedExample).events = ["qm"] := by
  have h := malformed_ground_truth_counted_incorrect cfgLog stubAgent malformedExample
    rfl 0 (by decide) (by decide)
  exact ⟨rfl, by decide, h.1, h.2.trans (by decide)⟩

/-- C8: the claim is false as stated — with `disable_log = True` two
questions complete but no artifact is serialized at all. -/
theorem no_artifact_when_logging_disabled :
    (agentCalls (rap_gsm8k_body cfgNoLog stubAgent twoExamples).events).length = 2 ∧
    (rap_gsm8k_body cfgNoLog stubAgent twoExamples).artifacts = [] :=
  ⟨rfl, rfl⟩

/-- C8 (amended): when logging is enabled, exactly one artifact holding the
full SearchResult is serialized per completed question, and its file name
index is the case index `resume + i + 1` of that question. -/
theorem one_artifact_per_completed_case (cfg : RapConfig)
    (agent : String → AlgoOutput) (testSplit : List Example)
    (hlog : cfg.disable_log = false) :
    (rap_gsm8k_body cfg agent testSplit).artifacts.length =
      (testSplit.drop cfg.resume).length ∧
    ∀ j, j < (testSplit.drop cfg.resume).length →
      (rap_gsm8k_body cfg agent testSplit).artifacts.getD j (0, ⟨[]⟩) =
        (cfg.resume + j + 1,
         agent (((testSplit.drop cfg.resume).getD j defaultEx).question)) :=
  ⟨artifacts_body_length cfg agent testSplit hlog,
   fun j hj => artifacts_body_getD cfg agent testSplit hlog j hj⟩

/-- C8 witness: the single artifact of a one-question run is named by case
index 1 and holds the agent's full output. -/
theorem one_artifact_per_completed_case_witness :
    cfgLog.disable_log = false ∧
    (rap_gsm8k_body cfgLog stubAgent oneExample).artifacts.length = 1 ∧
    (rap_gsm8k_body cfgLog stubAgent oneExample).artifacts.getD 0 (0, ⟨[]⟩) =
      (1, ⟨[⟨"q1", "The answer is 11."⟩]⟩) := by
  have h := one_artifact_per_completed_case cfgLog stubAgent oneExample rfl
  refine ⟨rfl, ?_, ?_⟩
  · rw [h.1]
    decide
  · rw [h.2 0 (by decide)]
    rfl

/-- C9: with `disable_log = True` the driver runs in the bare import
environment without creating a log directory, writing the args file, or
producing any log record or artifact; with `disable_log = False` it reaches
the unbound global name `os` — bound only inside the `__main__` block — and
fails with a `NameError` before any question is processed. -/
theorem os_sys_bound_only_in_main (cfg : RapConfig) (agent : String → AlgoOutput)
    (testSplit : List Example) :
    (cfg.disable_log = true →
      rap_gsm8k importEnv cfg agent testSplit =
        RunResult.ok (rap_gsm8k_body cfg agent testSplit) ∧
      Event.makeLogDir ∉ (rap_gsm8k_body cfg agent testSplit).events ∧
      Event.writeArgsFile ∉ (rap_gsm8k_body cfg agent testSplit).events ∧
      (rap_gsm8k_body cfg agent testSplit).resultLog = [] ∧
      (rap_gsm8k_body cfg agent testSplit).artifacts = []) ∧
    (cfg.disable_log = false →
      rap_gsm8k importEnv cfg agent testSplit = RunResult.nameError "os") := by
  constructor
  · intro hd
    refine ⟨by simp [rap_gsm8k, hd], ?_, ?_, ?_, ?_⟩
    · intro hmem
      simp only [rap_gsm8k_body, runLoop_events, hd, reduceIte, List.nil_append] at hmem
      rcases List.mem_append.mp hmem with h1 | h1
      · simp at h1
      · rcases List.mem_map.mp h1 with ⟨ex, _, hEq⟩
        exact Event.noConfusion hEq
    · intro hmem
      simp only [rap_gsm8k_body, runLoop_events, hd, reduceIte, List.nil_append] at hmem
      rcases List.mem_append.mp hmem with h1 | h1
      · simp at h1
      · rcases List.mem_map.mp h1 with ⟨ex, _, hEq⟩
        exact Event.noConfusion hEq
    · simp only [rap_gsm8k_body, hd]
      exact (runLoop_disabled agent cfg.resume 0 0 _).1
    · simp only [rap_gsm8k_body, hd]
      exact (runLoop_disabled agent cfg.resume 0 0 _).2
  · intro hd
    simp [rap_gsm8k, hd, importEnv]

/-- C9 witness: concrete runs in the import environment, one with logging
disabled (succeeds) and one with logging enabled (NameError on `os`). -/
theorem os_sys_bound_only_in_main_witness :
    (cfgNoLog.disable_log = true ∧
      rap_gsm8k importEnv cfgNoLog stubAgent oneExample =
        RunResult.ok (rap_gsm8k_body cfgNoLog stubAgent oneExample)) ∧
    (cfgLog.disable_log = false ∧
      rap_gsm8k importEnv cfgLog stubAgent oneExample = RunResult.nameError "os") :=
  ⟨⟨rfl, ((os_sys_bound_only_in_main cfgNoLog stubAgent oneExample).1 rfl).1⟩,
   ⟨rfl, (os_sys_bound_only_in_main cfgLog stubAgent oneExample).2 rfl⟩⟩

/-- C10: the running accuracy of the `j`-th record of the current run is
the number of correct cases among the first `j + 1` current-run cases
divided by `j + 1` — records before the resume offset are excluded from
both numerator and denominator — while the logged case index is
`resume + j + 1`. -/
theorem running_accuracy_counts_current_run (cfg : RapConfig)
    (agent : String → AlgoOutput) (testSplit : List Example)
    (hlog : cfg.disable_log = false) (j : Nat)
    (hj : j < (testSplit.drop cfg.resume).length) :
    ((rap_gsm8k_body cfg agent testSplit).resultLog.getD j defaultRec).accuracy =
      runningAccuracy agent (testSplit.drop cfg.resume) j ∧
    ((rap_gsm8k_body cfg agent testSplit).resultLog.getD j defaultRec).caseIdx =
      cfg.resume + j + 1 := by
  rw [resultLog_body_getD cfg agent testSplit hlog j hj]
  exact ⟨rfl, rfl⟩

/-- C10 witness: resuming at offset 1, the first current-run record is case
index 2 with accuracy 0/1 = 0 — the pre-resume case is excluded from the
denominator. -/
theorem running_accuracy_counts_current_run_witness :
    cfgResume.disable_log = false ∧
    0 < (twoExamples.drop cfgResume.resume).length ∧
    ((rap_gsm8k_body cfgResume stubAgent twoExamples).resultLog.getD 0
      defaultRec).accuracy = 0 ∧
    ((rap_gsm8k_body cfgResume stubAgent twoExamples).resultLog.getD 0
      defaultRec).caseIdx = 2 := by
  have h := running_accuracy_counts_current_run cfgResume stubAgent twoExamples rfl 0
    (by decide)
  refine ⟨rfl, by decide, ?_, ?_⟩
  · rw [h.1]
    have hflags : correctFlags stubAgent (List.drop cfgResume.resume twoExamples) =
        [false] := by decide
    have hcount : (List.take (0 + 1) [false]).count true = 0 := by decide
    simp [runningAccuracy, hflags, hcount]
  · rw [h.2]
    decide

end RapGsm8k
